import Mathlib

/-!
# Verification of the docker-proxy synchronization engine

A shallow embedding of `src/plugin/loader.go` (package `plugin`): the rebuild
and diff engine (`DockerLoader.update`), the fleet distributor
(`DockerLoader.updateServer`), the admin-listener override (`addAdminListen`),
and the debounced event listener (`DockerLoader.listenEvents`).

External collaborators (docker client, caddyfile generator, caddyfile-to-JSON
adapter, JSON codec, HTTP transport) are modelled as an environment record
whose fields give the outcome of each external call during one rebuild.
Byte sequences are `List Nat`; the `int64` version counter is an `Int` whose
increment wraps at 2^63 exactly as Go's `int64` does, via `wrap64`.
Observable behaviour (timer resets, adapter invocations, HTTP POSTs) is
recorded in a trace of `Action`s so that claims about calls that do or do not
happen can be stated directly.
-/

namespace CaddyDockerProxy

/-- A byte sequence (`[]byte` in the source). -/
abbrev Bytes := List Nat

/-- `caddy.AdminConfig` as used by `addAdminListen`: the `Listen` field the
loader sets, plus the remaining fields (opaque here, zero-valued when the
loader constructs a fresh `AdminConfig`). -/
structure AdminConfig where
  listen : String
  extra : Bytes
deriving DecidableEq, Repr

/-- `caddy.Config` as used by `addAdminListen`: the `Admin` pointer field
(`none` = nil) plus the remaining fields, opaque here and preserved by the
round-trip. -/
structure CaddyConfig where
  admin : Option AdminConfig
  rest : Bytes
deriving DecidableEq, Repr

/-- Outcome of `http.DefaultClient.Do` followed by `ioutil.ReadAll` for one
server: either a transport error (no response), or a response with a status
code, a flag saying whether reading the body succeeded, and the body bytes. -/
inductive HttpOutcome where
  | transportError
  | response (status : Nat) (bodyReadOk : Bool) (body : Bytes)
deriving DecidableEq, Repr

/-- Observable actions of one rebuild cycle, in program order. -/
inductive Action where
  /-- `timer.Reset(d)` with the delay in milliseconds. -/
  | timerReset (ms : Nat)
  /-- `skipEvents = false`. -/
  | clearSkipEvents
  /-- `generator.GenerateCaddyfile(...)`. -/
  | generateCall
  /-- `adapter.Adapt(caddyfile, nil)` on the given input. -/
  | adaptCall (input : Bytes)
  /-- An HTTP POST: url, Content-Type header, body. -/
  | httpPost (url : String) (contentType : String) (body : Bytes)
deriving DecidableEq, Repr

/-- Modelled from the spec: `StringInt64CMap`, the repository's thread-safe
map from server address to `int64`, is not under `src/`; per the spec it is a
"thread-safe mapping from server address to an integer version, supporting
get/set/delete", whose `Get` returns the zero value 0 for an absent key
("`lastAppliedVersion` starts at a sentinel lower than any real version
(e.g. 0)"). -/
structure StringInt64CMap where
  Get : String → Int

/-- Store a value under a key (`Set`). -/
def StringInt64CMap.Set (m : StringInt64CMap) (k : String) (v : Int) : StringInt64CMap :=
  ⟨fun q => if q = k then v else m.Get q⟩

/-- Remove a key (`Delete`); `Get` then yields the zero value again. -/
def StringInt64CMap.Delete (m : StringInt64CMap) (k : String) : StringInt64CMap :=
  ⟨fun q => if q = k then 0 else m.Get q⟩

/-- Modelled from the spec: `StringBoolCMap`, the repository's thread-safe
map from server address to `bool` ("in-flight" flags), is not under `src/`;
`Get` returns the zero value `false` for an absent key. -/
structure StringBoolCMap where
  Get : String → Bool

/-- Store a value under a key (`Set`). -/
def StringBoolCMap.Set (m : StringBoolCMap) (k : String) (v : Bool) : StringBoolCMap :=
  ⟨fun q => if q = k then v else m.Get q⟩

/-- Remove a key (`Delete`); `Get` then yields `false` again. -/
def StringBoolCMap.Delete (m : StringBoolCMap) (k : String) : StringBoolCMap :=
  ⟨fun q => if q = k then false else m.Get q⟩

/-- The mutable fields of `DockerLoader` touched by the synchronization
engine.  `lastCaddyfile`/`lastJSONConfig` are nil (`[]`) and `lastVersion`
is 0 in the freshly created loader. -/
structure LoaderState where
  skipEvents : Bool
  lastCaddyfile : Bytes
  lastJSONConfig : Bytes
  lastVersion : Int
  serversVersions : StringInt64CMap
  serversUpdating : StringBoolCMap

/-- `CreateDockerLoader`: zero-valued fields, empty concurrent maps. -/
def initialState : LoaderState :=
  { skipEvents := false
    lastCaddyfile := []
    lastJSONConfig := []
    lastVersion := 0
    serversVersions := ⟨fun _ => 0⟩
    serversUpdating := ⟨fun _ => false⟩ }

/-- Environment of one `update` call: the results of every external call the
rebuild can make.  `pollMs` is `options.PollingInterval` in milliseconds;
`caddyfile`/`controlledServers` are the generator's output; `adaptResult` is
the adapter's outcome on that caddyfile; `unmarshal`/`marshal` model
`json.Unmarshal`/`json.Marshal` on `caddy.Config`; `newRequestOk` and
`httpResult` give the per-server outcomes of `http.NewRequest` and of
performing the request. -/
structure UpdateEnv where
  pollMs : Nat
  caddyfile : Bytes
  controlledServers : List String
  adaptResult : Except String Bytes
  unmarshal : Bytes → Option CaddyConfig
  marshal : CaddyConfig → Option Bytes
  newRequestOk : String → Bool
  httpResult : String → HttpOutcome

/-- `addAdminListen(configJSON, listen)`: unmarshal the JSON config, replace
its `Admin` field by a fresh `AdminConfig` whose only set field is `Listen`,
and marshal it back.  Failure of either codec step yields `none`. -/
def addAdminListen (unmarshal : Bytes → Option CaddyConfig)
    (marshal : CaddyConfig → Option Bytes)
    (configJSON : Bytes) (listen : String) : Option Bytes :=
  match unmarshal configJSON with
  | none => none
  | some config => marshal { config with admin := some { listen := listen, extra := [] } }

/-- Result of one (sub)operation: the new loader state and the trace of
observable actions it performed. -/
structure StepResult where
  state : LoaderState
  trace : List Action

/-- The body of `updateServer` after the busy flag has been set: `s1` is the
state with the flag set, and `s1.lastVersion` is the snapshot `version` (the
flag write does not touch it).  Skips servers already at that version, builds
the payload with `addAdminListen`, POSTs it to `http://<server>:2019/load`
with Content-Type `application/json`, and records the version only on a 200
response whose body was read successfully.  Every branch ends with the
deferred `Delete` of the busy flag. -/
def updateServerBody (env : UpdateEnv) (server : String) (s1 : LoaderState) : StepResult :=
  if s1.serversVersions.Get server ≥ s1.lastVersion then
    ⟨{ s1 with serversUpdating := s1.serversUpdating.Delete server }, []⟩
  else
    match addAdminListen env.unmarshal env.marshal s1.lastJSONConfig
        ("tcp/" ++ server ++ ":2019") with
    | none => ⟨{ s1 with serversUpdating := s1.serversUpdating.Delete server }, []⟩
    | some postBody =>
      if !env.newRequestOk server then
        ⟨{ s1 with serversUpdating := s1.serversUpdating.Delete server }, []⟩
      else
        match env.httpResult server with
        | HttpOutcome.transportError =>
          ⟨{ s1 with serversUpdating := s1.serversUpdating.Delete server },
            [Action.httpPost ("http://" ++ server ++ ":2019/load") "application/json" postBody]⟩
        | HttpOutcome.response status bodyReadOk _ =>
          if !bodyReadOk then
            ⟨{ s1 with serversUpdating := s1.serversUpdating.Delete server },
              [Action.httpPost ("http://" ++ server ++ ":2019/load") "application/json" postBody]⟩
          else if status ≠ 200 then
            ⟨{ s1 with serversUpdating := s1.serversUpdating.Delete server },
              [Action.httpPost ("http://" ++ server ++ ":2019/load") "application/json" postBody]⟩
          else
            ⟨{ s1 with
                serversVersions := s1.serversVersions.Set server s1.lastVersion
                serversUpdating := s1.serversUpdating.Delete server },
              [Action.httpPost ("http://" ++ server ++ ":2019/load") "application/json" postBody]⟩

/-- `DockerLoader.updateServer(wg, server)`.  Skips servers already being
updated, otherwise flags the server as updating and proceeds with
`updateServerBody`. -/
def updateServer (env : UpdateEnv) (server : String) (s : LoaderState) : StepResult :=
  if s.serversUpdating.Get server then ⟨s, []⟩
  else updateServerBody env server { s with serversUpdating := s.serversUpdating.Set server true }

/-- The fan-out loop of `update`: one `updateServer` per controlled server.
(In the source the calls run in goroutines joined by a `WaitGroup`; claims
about a single rebuild only concern each server's own actions, so the
embedding sequences them in list order.) -/
def distribute (env : UpdateEnv) (servers : List String) (s : LoaderState) : StepResult :=
  match servers with
  | [] => ⟨s, []⟩
  | server :: rest =>
    let r := updateServer env server s
    let r2 := distribute env rest r.state
    ⟨r2.state, r.trace ++ r2.trace⟩

/-- Addition wrapping at 2^63, the semantics of Go's `int64` increment. -/
def wrap64 (z : Int) : Int := (z + 2 ^ 63) % 2 ^ 64 - 2 ^ 63

/-- Result of one `update` call: final state, trace, and the boolean the
function returns. -/
structure UpdateResult where
  state : LoaderState
  trace : List Action
  ok : Bool

/-- `DockerLoader.update()`.  Re-arms the timer with the polling interval and
clears `skipEvents` first; generates the caddyfile; compares it byte-for-byte
with the previous one and stores it unconditionally; on change adapts it,
aborting with `false` on an adapter error, otherwise storing the JSON config
and incrementing `lastVersion`; finally distributes to every controlled
server. -/
def update (env : UpdateEnv) (s : LoaderState) : UpdateResult :=
  if s.lastCaddyfile = env.caddyfile then
    ⟨(distribute env env.controlledServers
        { s with skipEvents := false, lastCaddyfile := env.caddyfile }).state,
      [Action.timerReset env.pollMs, Action.clearSkipEvents, Action.generateCall] ++
        (distribute env env.controlledServers
          { s with skipEvents := false, lastCaddyfile := env.caddyfile }).trace,
      true⟩
  else
    match env.adaptResult with
    | Except.error _ =>
      ⟨{ s with skipEvents := false, lastCaddyfile := env.caddyfile },
        [Action.timerReset env.pollMs, Action.clearSkipEvents, Action.generateCall,
          Action.adaptCall env.caddyfile], false⟩
    | Except.ok configJSON =>
      ⟨(distribute env env.controlledServers
          { s with
              skipEvents := false
              lastCaddyfile := env.caddyfile
              lastJSONConfig := configJSON
              lastVersion := wrap64 (s.lastVersion + 1) }).state,
        [Action.timerReset env.pollMs, Action.clearSkipEvents, Action.generateCall,
          Action.adaptCall env.caddyfile] ++
          (distribute env env.controlledServers
            { s with
                skipEvents := false
                lastCaddyfile := env.caddyfile
                lastJSONConfig := configJSON
                lastVersion := wrap64 (s.lastVersion + 1) }).trace,
        true⟩

/-- Iterate `update` over a list of per-rebuild environments. -/
def runUpdates (envs : List UpdateEnv) (s : LoaderState) : LoaderState :=
  match envs with
  | [] => s
  | e :: rest => runUpdates rest (update e s).state

/-- Like `runUpdates` but also accumulating all traces. -/
def runTrace (envs : List UpdateEnv) (s : LoaderState) : StepResult :=
  match envs with
  | [] => ⟨s, []⟩
  | e :: rest =>
    ⟨(runTrace rest (update e s).state).state,
      (update e s).trace ++ (runTrace rest (update e s).state).trace⟩

/-- Whether the adapter succeeded in this environment. -/
def adaptOk (e : UpdateEnv) : Bool :=
  match e.adaptResult with
  | Except.ok _ => true
  | Except.error _ => false

/-- Whether this rebuild accepts a new configuration: the generated caddyfile
differs from the stored one and adaptation succeeds. -/
def accepted (e : UpdateEnv) (s : LoaderState) : Bool :=
  if s.lastCaddyfile = e.caddyfile then false else adaptOk e

/-- Number of accepted configuration changes along a run. -/
def acceptedCount (envs : List UpdateEnv) (s : LoaderState) : Nat :=
  match envs with
  | [] => 0
  | e :: rest => (if accepted e s then 1 else 0) + acceptedCount rest (update e s).state

/-- Trace predicate: is this action an adapter invocation? -/
def isAdaptCall : Action → Bool
  | Action.adaptCall _ => true
  | _ => false

/-- Trace predicate: is this action an HTTP POST? -/
def isHttpPost : Action → Bool
  | Action.httpPost _ _ _ => true
  | _ => false

/-- Trace predicate: is this action a timer reset? -/
def isTimerReset : Action → Bool
  | Action.timerReset _ => true
  | _ => false

/-- Trace predicate: is this action the clearing of `skipEvents`? -/
def isClearSkip : Action → Bool
  | Action.clearSkipEvents => true
  | _ => false

/-- Trace predicate: is this action the generator call? -/
def isGenerateCall : Action → Bool
  | Action.generateCall => true
  | _ => false

/-- The adapter invocations of a trace. -/
def hasAdapt (t : List Action) : Bool := t.any isAdaptCall

/-- The HTTP POSTs of a trace. -/
def posts (t : List Action) : List Action := t.filter isHttpPost

/-- Number of HTTP POSTs in a trace. -/
def countPosts (t : List Action) : Nat := (posts t).length

/-- Did the push get a 200 response with a readable body?  (The body is read
before the status check, so a read failure abandons the attempt even on a
200.) -/
def isSuccess : HttpOutcome → Bool
  | HttpOutcome.transportError => false
  | HttpOutcome.response status bodyReadOk _ => bodyReadOk && status == 200

/-!
## Event listener (`DockerLoader.listenEvents`)

The listener reads docker events; while `skipEvents` is set every event is
discarded; otherwise an update-worthy event sets `skipEvents` and resets the
shared timer to the 100 ms debounce delay.
-/

/-- A docker event as consumed by `listenEvents`: its `Type` and `Action`
strings. -/
structure DockerEvent where
  type : String
  action : String
deriving DecidableEq, Repr

/-- The filtering policy of `listenEvents`: the exact (Type, Action) pairs
that trigger an update. -/
def isUpdateEvent (e : DockerEvent) : Bool :=
  (e.type == "container" && e.action == "create") ||
  (e.type == "container" && e.action == "start") ||
  (e.type == "container" && e.action == "stop") ||
  (e.type == "container" && e.action == "die") ||
  (e.type == "container" && e.action == "destroy") ||
  (e.type == "service" && e.action == "create") ||
  (e.type == "service" && e.action == "update") ||
  (e.type == "service" && e.action == "remove") ||
  (e.type == "config" && e.action == "create") ||
  (e.type == "config" && e.action == "remove")

/-- One iteration of the `ListenEvents` loop on an incoming event: the new
`skipEvents` flag and the timer resets performed. -/
def listenStep (skipEvents : Bool) (e : DockerEvent) : Bool × List Action :=
  if skipEvents then (skipEvents, [])
  else if isUpdateEvent e then (true, [Action.timerReset 100])
  else (skipEvents, [])

/-- Process a burst of events arriving within one debounce window (no timer
fire in between): final `skipEvents` flag and all timer resets performed. -/
def processEvents (skipEvents : Bool) : List DockerEvent → Bool × List Action
  | [] => (skipEvents, [])
  | e :: es =>
    let r := listenStep skipEvents e
    let r2 := processEvents r.1 es
    (r2.1, r.2 ++ r2.2)

/-!
## Fine-grained push machine for the busy flag

`updateServer`'s busy-flag discipline lives at the granularity of individual
concurrent-map operations: `Get` (line 204), `Set true` (line 209), the
deferred `Delete` (line 210).  To reason about two pushes to the same server
running concurrently — each map operation is individually atomic, the
sequence is not — we model one push as a small-step machine over the shared
per-server pair (busy flag, applied version), and interleave two instances
under an explicit schedule.
-/

/-- Program counter of one `updateServer` instance, at the granularity of its
atomic shared-state operations. -/
inductive PushPC where
  /-- About to `Get` the busy flag (line 204). -/
  | start
  /-- About to `Set` the busy flag (line 209). -/
  | setBusy
  /-- About to read `serversVersions` and compare with the snapshot
  (line 215). -/
  | checkVersion
  /-- About to perform the HTTP POST. -/
  | doHttp
  /-- About to `Set` the applied version (line 253). -/
  | setVersion
  /-- About to run the deferred `Delete` of the busy flag. -/
  | clearBusy
  /-- Returned. -/
  | done
deriving DecidableEq, Repr

/-- The shared per-server state touched by concurrent pushes: the
`serversUpdating` entry and the `serversVersions` entry of one server. -/
structure PushShared where
  busy : Bool
  applied : Int
deriving DecidableEq, Repr

/-- Observable busy-flag operations. -/
inductive BusyEvent where
  | busySet
  | busyClear
deriving DecidableEq, Repr

/-- Result of advancing a push instance. -/
structure PushStepResult where
  pc : PushPC
  shared : PushShared
  events : List BusyEvent
deriving DecidableEq, Repr

/-- One atomic step of one `updateServer` instance whose `lastVersion`
snapshot is `version` and whose HTTP attempt outcome is `httpOk` (success
meaning a 200 response with readable body; payload construction failures are
folded into `httpOk = false` since they take the same exit path). -/
def pushStep (version : Int) (httpOk : Bool) (pc : PushPC) (sh : PushShared) :
    PushStepResult :=
  match pc with
  | PushPC.start =>
    if sh.busy then ⟨PushPC.done, sh, []⟩ else ⟨PushPC.setBusy, sh, []⟩
  | PushPC.setBusy => ⟨PushPC.checkVersion, { sh with busy := true }, [BusyEvent.busySet]⟩
  | PushPC.checkVersion =>
    if sh.applied ≥ version then ⟨PushPC.clearBusy, sh, []⟩ else ⟨PushPC.doHttp, sh, []⟩
  | PushPC.doHttp =>
    if httpOk then ⟨PushPC.setVersion, sh, []⟩ else ⟨PushPC.clearBusy, sh, []⟩
  | PushPC.setVersion => ⟨PushPC.clearBusy, { sh with applied := version }, []⟩
  | PushPC.clearBusy => ⟨PushPC.done, { sh with busy := false }, [BusyEvent.busyClear]⟩
  | PushPC.done => ⟨PushPC.done, sh, []⟩

/-- Run one push instance alone for `fuel` steps (6 steps complete any
push). -/
def pushRun (version : Int) (httpOk : Bool) : Nat → PushPC → PushShared → PushStepResult
  | 0, pc, sh => ⟨pc, sh, []⟩
  | Nat.succ n, pc, sh =>
    match pc with
    | PushPC.done => ⟨PushPC.done, sh, []⟩
    | _ =>
      let r := pushStep version httpOk pc sh
      let r2 := pushRun version httpOk n r.pc r.shared
      ⟨r2.pc, r2.shared, r.events ++ r2.events⟩

/-- Two push instances (A and B) for the same server, with their own
snapshots and HTTP outcomes, over the shared per-server state, plus the
accumulated busy-flag event history. -/
structure TwoPushState where
  pcA : PushPC
  pcB : PushPC
  shared : PushShared
  events : List BusyEvent
deriving DecidableEq, Repr

/-- Advance instance A (`true`) or B (`false`) by one atomic step. -/
def twoStep (vA vB : Int) (okA okB : Bool) (a : Bool) (t : TwoPushState) : TwoPushState :=
  if a then
    let r := pushStep vA okA t.pcA t.shared
    ⟨r.pc, t.pcB, r.shared, t.events ++ r.events⟩
  else
    let r := pushStep vB okB t.pcB t.shared
    ⟨t.pcA, r.pc, r.shared, t.events ++ r.events⟩

/-- Interleave the two instances under an explicit schedule. -/
def twoRun (vA vB : Int) (okA okB : Bool) : List Bool → TwoPushState → TwoPushState
  | [], t => t
  | a :: rest, t => twoRun vA vB okA okB rest (twoStep vA vB okA okB a t)

/-- Both instances start at their busy check, with the flag clear and no
version yet applied. -/
def initTwoPush : TwoPushState := ⟨PushPC.start, PushPC.start, ⟨false, 0⟩, []⟩

/-- Scan a busy-flag event history: `true` iff no `busySet` occurs while the
flag is already set, i.e. the flag is never set twice without an intervening
clear. -/
def noDoubleSetAux : Bool → List BusyEvent → Bool
  | _, [] => true
  | isSet, BusyEvent.busySet :: rest => if isSet then false else noDoubleSetAux true rest
  | _, BusyEvent.busyClear :: rest => noDoubleSetAux false rest

/-- The busy flag is never set twice without an intervening clear. -/
def noDoubleSet (l : List BusyEvent) : Bool := noDoubleSetAux false l

/-!
## Basic lemmas about the concurrent maps and `updateServer`
-/

@[simp] lemma int64CMap_Get_Set (m : StringInt64CMap) (k q : String) (v : Int) :
    (m.Set k v).Get q = if q = k then v else m.Get q := rfl

@[simp] lemma int64CMap_Get_Delete (m : StringInt64CMap) (k q : String) :
    (m.Delete k).Get q = if q = k then 0 else m.Get q := rfl

@[simp] lemma boolCMap_Get_Set (m : StringBoolCMap) (k q : String) (v : Bool) :
    (m.Set k v).Get q = if q = k then v else m.Get q := rfl

@[simp] lemma boolCMap_Get_Delete (m : StringBoolCMap) (k q : String) :
    (m.Delete k).Get q = if q = k then false else m.Get q := rfl

/-- `updateServerBody` never touches `lastVersion`. -/
lemma updateServerBody_lastVersion (env : UpdateEnv) (server : String) (s1 : LoaderState) :
    (updateServerBody env server s1).state.lastVersion = s1.lastVersion := by
  unfold updateServerBody
  repeat' split
  all_goals rfl

/-- `updateServer` never touches `lastVersion`. -/
lemma updateServer_lastVersion (env : UpdateEnv) (server : String) (s : LoaderState) :
    (updateServer env server s).state.lastVersion = s.lastVersion := by
  unfold updateServer
  split
  · rfl
  · rw [updateServerBody_lastVersion]

/-- `updateServerBody` never touches `lastCaddyfile`. -/
lemma updateServerBody_lastCaddyfile (env : UpdateEnv) (server : String) (s1 : LoaderState) :
    (updateServerBody env server s1).state.lastCaddyfile = s1.lastCaddyfile := by
  unfold updateServerBody
  repeat' split
  all_goals rfl

/-- `updateServer` never touches `lastCaddyfile`. -/
lemma updateServer_lastCaddyfile (env : UpdateEnv) (server : String) (s : LoaderState) :
    (updateServer env server s).state.lastCaddyfile = s.lastCaddyfile := by
  unfold updateServer
  split
  · rfl
  · rw [updateServerBody_lastCaddyfile]

/-- `updateServerBody` never touches `lastJSONConfig`. -/
lemma updateServerBody_lastJSONConfig (env : UpdateEnv) (server : String) (s1 : LoaderState) :
    (updateServerBody env server s1).state.lastJSONConfig = s1.lastJSONConfig := by
  unfold updateServerBody
  repeat' split
  all_goals rfl

/-- `updateServer` never touches `lastJSONConfig`. -/
lemma updateServer_lastJSONConfig (env : UpdateEnv) (server : String) (s : LoaderState) :
    (updateServer env server s).state.lastJSONConfig = s.lastJSONConfig := by
  unfold updateServer
  split
  · rfl
  · rw [updateServerBody_lastJSONConfig]

/-- `updateServerBody` never touches `skipEvents`. -/
lemma updateServerBody_skipEvents (env : UpdateEnv) (server : String) (s1 : LoaderState) :
    (updateServerBody env server s1).state.skipEvents = s1.skipEvents := by
  unfold updateServerBody
  repeat' split
  all_goals rfl

/-- `updateServer` never touches `skipEvents`. -/
lemma updateServer_skipEvents (env : UpdateEnv) (server : String) (s : LoaderState) :
    (updateServer env server s).state.skipEvents = s.skipEvents := by
  unfold updateServer
  split
  · rfl
  · rw [updateServerBody_skipEvents]

/-- Every entry of `serversVersions` is non-decreasing across
`updateServerBody`: the only write stores the snapshot, and it is guarded by
the strict version comparison. -/
lemma updateServerBody_versions_le (env : UpdateEnv) (server k : String) (s1 : LoaderState) :
    s1.serversVersions.Get k ≤ (updateServerBody env server s1).state.serversVersions.Get k := by
  unfold updateServerBody
  repeat' split
  all_goals try exact le_refl _
  simp only [int64CMap_Get_Set]
  split
  · rename_i hk
    subst hk
    omega
  · exact le_refl _

/-- Every entry of `serversVersions` is non-decreasing across one
`updateServer` call. -/
lemma updateServer_versions_le (env : UpdateEnv) (server k : String) (s : LoaderState) :
    s.serversVersions.Get k ≤ (updateServer env server s).state.serversVersions.Get k := by
  unfold updateServer
  split
  · exact le_refl _
  · exact updateServerBody_versions_le env server k _

/-- Every action in an `updateServerBody` trace is an HTTP POST. -/
lemma updateServerBody_trace_posts (env : UpdateEnv) (server : String) (s1 : LoaderState) :
    ∀ a ∈ (updateServerBody env server s1).trace, isHttpPost a = true := by
  unfold updateServerBody
  repeat' split
  all_goals simp_all [isHttpPost]

/-- Every action in an `updateServer` trace is an HTTP POST. -/
lemma updateServer_trace_posts (env : UpdateEnv) (server : String) (s : LoaderState) :
    ∀ a ∈ (updateServer env server s).trace, isHttpPost a = true := by
  unfold updateServer
  split
  · simp
  · exact updateServerBody_trace_posts env server _

/-- An `updateServerBody` trace is empty or a single POST. -/
lemma updateServerBody_trace_len (env : UpdateEnv) (server : String) (s1 : LoaderState) :
    (updateServerBody env server s1).trace.length ≤ 1 := by
  unfold updateServerBody
  repeat' split
  all_goals simp

/-- An `updateServer` trace is empty or a single POST. -/
lemma updateServer_trace_len (env : UpdateEnv) (server : String) (s : LoaderState) :
    (updateServer env server s).trace.length ≤ 1 := by
  unfold updateServer
  split
  · simp
  · exact updateServerBody_trace_len env server _

/-- A push is only attempted (any POST occurs) when the snapshot version is
strictly greater than the server's applied version. -/
lemma updateServerBody_post_guard (env : UpdateEnv) (server : String) (s1 : LoaderState)
    (h : (updateServerBody env server s1).trace ≠ []) :
    s1.serversVersions.Get server < s1.lastVersion := by
  revert h
  unfold updateServerBody
  repeat' split
  all_goals simp_all

/-- A push is only attempted (any POST occurs) when the snapshot version is
strictly greater than the server's applied version. -/
lemma updateServer_post_guard (env : UpdateEnv) (server : String) (s : LoaderState)
    (h : (updateServer env server s).trace ≠ []) :
    s.serversVersions.Get server < s.lastVersion := by
  revert h
  unfold updateServer
  split
  · simp
  · exact fun h => updateServerBody_post_guard env server
      { s with serversUpdating := s.serversUpdating.Set server true } h

/-- A server already at (or beyond) the current version is skipped with no
action at all. -/
lemma updateServer_skip_current (env : UpdateEnv) (server : String) (s : LoaderState)
    (h : s.lastVersion ≤ s.serversVersions.Get server) :
    (updateServer env server s).trace = [] := by
  unfold updateServer
  split
  · rfl
  · unfold updateServerBody
    rw [if_pos]
    exact h

/-!
## Lemmas about `distribute`, `update` and `runUpdates`
-/

/-- `distribute` never touches the rebuild-owned fields. -/
lemma distribute_lastVersion (env : UpdateEnv) (servers : List String) (s : LoaderState) :
    (distribute env servers s).state.lastVersion = s.lastVersion := by
  induction servers generalizing s with
  | nil => rfl
  | cons server rest ih =>
    simp only [distribute]
    rw [ih, updateServer_lastVersion]

/-- `distribute` never touches `lastCaddyfile`. -/
lemma distribute_lastCaddyfile (env : UpdateEnv) (servers : List String) (s : LoaderState) :
    (distribute env servers s).state.lastCaddyfile = s.lastCaddyfile := by
  induction servers generalizing s with
  | nil => rfl
  | cons server rest ih =>
    simp only [distribute]
    rw [ih, updateServer_lastCaddyfile]

/-- `distribute` never touches `lastJSONConfig`. -/
lemma distribute_lastJSONConfig (env : UpdateEnv) (servers : List String) (s : LoaderState) :
    (distribute env servers s).state.lastJSONConfig = s.lastJSONConfig := by
  induction servers generalizing s with
  | nil => rfl
  | cons server rest ih =>
    simp only [distribute]
    rw [ih, updateServer_lastJSONConfig]

/-- `distribute` never touches `skipEvents`. -/
lemma distribute_skipEvents (env : UpdateEnv) (servers : List String) (s : LoaderState) :
    (distribute env servers s).state.skipEvents = s.skipEvents := by
  induction servers generalizing s with
  | nil => rfl
  | cons server rest ih =>
    simp only [distribute]
    rw [ih, updateServer_skipEvents]

/-- Every entry of `serversVersions` is non-decreasing across `distribute`. -/
lemma distribute_versions_le (env : UpdateEnv) (servers : List String) (k : String)
    (s : LoaderState) :
    s.serversVersions.Get k ≤ (distribute env servers s).state.serversVersions.Get k := by
  induction servers generalizing s with
  | nil => exact le_refl _
  | cons server rest ih =>
    simp only [distribute]
    exact le_trans (updateServer_versions_le env server k s) (ih _)

/-- Every action in a `distribute` trace is an HTTP POST. -/
lemma distribute_trace_posts (env : UpdateEnv) (servers : List String) (s : LoaderState) :
    ∀ a ∈ (distribute env servers s).trace, isHttpPost a = true := by
  induction servers generalizing s with
  | nil => simp [distribute]
  | cons server rest ih =>
    simp only [distribute, List.mem_append]
    intro a ha
    rcases ha with ha | ha
    · exact updateServer_trace_posts env server s a ha
    · exact ih _ a ha

/-- After any `update`, the stored caddyfile is the generated one (stored
unconditionally, even when adaptation failed). -/
lemma update_lastCaddyfile (env : UpdateEnv) (s : LoaderState) :
    (update env s).state.lastCaddyfile = env.caddyfile := by
  unfold update
  split
  · rw [distribute_lastCaddyfile]
  · split
    · rfl
    · rw [distribute_lastCaddyfile]

/-- After any `update`, `skipEvents` is cleared. -/
lemma update_skipEvents (env : UpdateEnv) (s : LoaderState) :
    (update env s).state.skipEvents = false := by
  unfold update
  split
  · rw [distribute_skipEvents]
  · split
    · rfl
    · rw [distribute_skipEvents]

/-- The version after one `update`: incremented (with `int64` wrap) exactly
when the rebuild accepts a change, otherwise untouched. -/
lemma update_lastVersion (env : UpdateEnv) (s : LoaderState) :
    (update env s).state.lastVersion =
      if accepted env s then wrap64 (s.lastVersion + 1) else s.lastVersion := by
  unfold update accepted adaptOk
  split
  · rename_i h
    rw [distribute_lastVersion]
    simp [h]
  · rename_i h
    split
    · rename_i e hres
      simp [h, hres]
    · rename_i e hres
      rw [distribute_lastVersion]
      simp [h, hres]

/-- The JSON config after one `update`: replaced exactly when the rebuild
accepts a change, otherwise untouched. -/
lemma update_lastJSONConfig (env : UpdateEnv) (s : LoaderState) :
    (update env s).state.lastJSONConfig =
      match env.adaptResult with
      | Except.ok json => if s.lastCaddyfile = env.caddyfile then s.lastJSONConfig else json
      | Except.error _ => s.lastJSONConfig := by
  unfold update
  split
  · rename_i h
    rw [distribute_lastJSONConfig]
    cases env.adaptResult <;> simp [h]
  · rename_i h
    split
    · rename_i e hres
      simp [hres]
    · rename_i e hres
      rw [distribute_lastJSONConfig]
      simp [h, hres]

/-- Every entry of `serversVersions` is non-decreasing across one `update`. -/
lemma update_versions_le (env : UpdateEnv) (k : String) (s : LoaderState) :
    s.serversVersions.Get k ≤ (update env s).state.serversVersions.Get k := by
  unfold update
  split
  · exact distribute_versions_le env env.controlledServers k _
  · split
    · exact le_refl _
    · exact distribute_versions_le env env.controlledServers k _

/-- Every entry of `serversVersions` is non-decreasing across a whole run. -/
lemma runUpdates_versions_le (envs : List UpdateEnv) (k : String) (s : LoaderState) :
    s.serversVersions.Get k ≤ (runUpdates envs s).serversVersions.Get k := by
  induction envs generalizing s with
  | nil => exact le_refl _
  | cons e rest ih =>
    simp only [runUpdates]
    exact le_trans (update_versions_le e k s) (ih _)

/-- Splitting a run at a list append. -/
lemma runUpdates_append (a b : List UpdateEnv) (s : LoaderState) :
    runUpdates (a ++ b) s = runUpdates b (runUpdates a s) := by
  induction a generalizing s with
  | nil => rfl
  | cons e rest ih =>
    simp only [List.cons_append, runUpdates]
    exact ih _

/-- Splitting the accepted-change count at a list append. -/
lemma acceptedCount_append (a b : List UpdateEnv) (s : LoaderState) :
    acceptedCount (a ++ b) s = acceptedCount a s + acceptedCount b (runUpdates a s) := by
  induction a generalizing s with
  | nil => simp [acceptedCount, runUpdates]
  | cons e rest ih =>
    simp only [List.cons_append, acceptedCount, runUpdates, List.append_eq]
    rw [ih]
    omega

/-- At most one accepted change per rebuild. -/
lemma acceptedCount_le_length (envs : List UpdateEnv) (s : LoaderState) :
    acceptedCount envs s ≤ envs.length := by
  induction envs generalizing s with
  | nil => simp [acceptedCount]
  | cons e rest ih =>
    simp only [acceptedCount, List.length_cons]
    have := ih (update e s).state
    split <;> omega

/-- `wrap64` is the identity on the `int64` range. -/
lemma wrap64_eq_self (z : Int) (h1 : -(2 ^ 63) ≤ z) (h2 : z < 2 ^ 63) : wrap64 z = z := by
  unfold wrap64
  omega

/-- Along any run short enough that the `int64` counter cannot overflow, the
version is the starting version plus the number of accepted changes. -/
lemma runUpdates_lastVersion (envs : List UpdateEnv) : ∀ (s : LoaderState),
    0 ≤ s.lastVersion → s.lastVersion + envs.length < 2 ^ 63 →
    (runUpdates envs s).lastVersion = s.lastVersion + acceptedCount envs s := by
  induction envs with
  | nil =>
    intro s _ _
    simp [runUpdates, acceptedCount]
  | cons e rest ih =>
    intro s h0 hlt
    simp only [List.length_cons] at hlt
    simp only [runUpdates, acceptedCount]
    by_cases hacc : accepted e s = true
    · have hv : (update e s).state.lastVersion = s.lastVersion + 1 := by
        rw [update_lastVersion, if_pos hacc]
        exact wrap64_eq_self _ (by omega) (by push_cast at hlt; omega)
      rw [ih (update e s).state (by omega) (by rw [hv]; push_cast at hlt ⊢; omega), hv,
        if_pos hacc]
      push_cast
      ring
    · have hv : (update e s).state.lastVersion = s.lastVersion := by
        rw [update_lastVersion, if_neg hacc]
      rw [ih (update e s).state (by omega) (by rw [hv]; push_cast at hlt ⊢; omega), hv,
        if_neg hacc]
      simp

/-!
## Lemmas about the event listener
-/

/-- While suppressed, every event — qualifying or not — is discarded and the
timer is never re-armed. -/
lemma processEvents_suppressed (es : List DockerEvent) :
    processEvents true es = (true, []) := by
  induction es with
  | nil => rfl
  | cons e rest ih => simp [processEvents, listenStep, ih]

/-- From the unsuppressed state, a window containing at least one qualifying
event arms the 100 ms debounce timer exactly once and leaves the listener
suppressed. -/
lemma processEvents_first_arm (es : List DockerEvent) (h : es.any isUpdateEvent = true) :
    (processEvents false es).1 = true ∧
    (processEvents false es).2 = [Action.timerReset 100] := by
  induction es with
  | nil => simp at h
  | cons e rest ih =>
    by_cases he : isUpdateEvent e = true
    · simp [processEvents, listenStep, he, processEvents_suppressed]
    · simp only [List.any_cons, he, Bool.false_or] at h
      simpa [processEvents, listenStep, he] using ih h

/-!
## Lemmas about the fine-grained push machine
-/

/-- A push that observes the busy flag set returns immediately: no shared
mutation, no busy-flag events. -/
lemma pushRun_busy (v : Int) (ok : Bool) (sh : PushShared) (h : sh.busy = true) :
    pushRun v ok 6 PushPC.start sh = ⟨PushPC.done, sh, []⟩ := by
  simp [pushRun, pushStep, h]

/-- A push that observes the busy flag clear runs to completion: it sets the
flag exactly once, clears it on its exit path (whichever of the skip,
failure, or success paths is taken), and terminates with the flag clear. -/
lemma pushRun_notBusy (v : Int) (ok : Bool) (sh : PushShared) (h : sh.busy = false) :
    (pushRun v ok 6 PushPC.start sh).pc = PushPC.done ∧
    (pushRun v ok 6 PushPC.start sh).shared.busy = false ∧
    (pushRun v ok 6 PushPC.start sh).events = [BusyEvent.busySet, BusyEvent.busyClear] := by
  by_cases h2 : sh.applied ≥ v
  · simp [pushRun, pushStep, h, h2]
  · by_cases h3 : ok <;> simp [pushRun, pushStep, h, h2, h3]

/-- A rebuild whose generated caddyfile equals the stored one returns
success. -/
lemma update_unchanged_ok (e : UpdateEnv) (s : LoaderState)
    (h : s.lastCaddyfile = e.caddyfile) : (update e s).ok = true := by
  unfold update
  rw [if_pos h]

/-- A rebuild whose generated caddyfile equals the stored one never invokes
the adapter. -/
lemma update_unchanged_no_adapt (e : UpdateEnv) (s : LoaderState)
    (h : s.lastCaddyfile = e.caddyfile) : hasAdapt (update e s).trace = false := by
  unfold update hasAdapt
  rw [if_pos h]
  simp only [List.any_append, Bool.or_eq_false_iff]
  refine ⟨by simp [isAdaptCall], ?_⟩
  rw [List.any_eq_false]
  intro a ha
  have hp := distribute_trace_posts e e.controlledServers _ a ha
  cases a <;> simp_all [isHttpPost, isAdaptCall]

/-!
## The claims

Each claim of the specification is settled by one theorem below (plus a
counterexample where the claim fails as stated, and a witness instantiating
every hypothesis).
-/

/-- C2: if the generator returns byte-identical output across two consecutive
rebuilds, the second rebuild leaves `ConfigVersion` unchanged and never
invokes the adapter. -/
theorem unchanged_output_skips_adaptation (e1 e2 : UpdateEnv) (s : LoaderState)
    (h : e2.caddyfile = e1.caddyfile) :
    (update e2 (update e1 s).state).state.lastVersion = (update e1 s).state.lastVersion ∧
    hasAdapt (update e2 (update e1 s).state).trace = false := by
  have hcf : (update e1 s).state.lastCaddyfile = e2.caddyfile := by
    rw [update_lastCaddyfile, h]
  constructor
  · rw [update_lastVersion]
    have : accepted e2 (update e1 s).state = false := by
      unfold accepted
      rw [if_pos hcf]
    simp [this]
  · exact update_unchanged_no_adapt e2 _ hcf

/-- A concrete environment for the C2 witness: a changed caddyfile whose
adaptation succeeds and whose single server accepts the push. -/
def envC2 : UpdateEnv :=
  { pollMs := 30000
    caddyfile := [3]
    controlledServers := ["10.0.0.1"]
    adaptResult := Except.ok [4]
    unmarshal := fun _ => some ⟨none, []⟩
    marshal := fun _ => some [4, 1]
    newRequestOk := fun _ => true
    httpResult := fun _ => HttpOutcome.response 200 true [] }

/-- Witness for C2 at a concrete pair of identical rebuilds. -/
theorem unchanged_output_skips_adaptation_witness :
    (update envC2 (update envC2 initialState).state).state.lastVersion =
      (update envC2 initialState).state.lastVersion ∧
    hasAdapt (update envC2 (update envC2 initialState).state).trace = false :=
  unchanged_output_skips_adaptation envC2 envC2 initialState rfl

/-- The final conjunct of C1 as the specification states it: after a rebuild
whose adaptation failed, a future rebuild whose generator output is unchanged
from the failed attempt retries adaptation. -/
def retriesAdaptationWhenUnchanged : Prop :=
  ∀ (e1 e2 : UpdateEnv) (s : LoaderState),
    s.lastCaddyfile ≠ e1.caddyfile →
    adaptOk e1 = false →
    e2.caddyfile = e1.caddyfile →
    hasAdapt (update e2 (update e1 s).state).trace = true

/-- A concrete environment whose adaptation fails. -/
def envC1 : UpdateEnv :=
  { pollMs := 30000
    caddyfile := [1]
    controlledServers := ["10.0.0.1"]
    adaptResult := Except.error "caddyfile parse error"
    unmarshal := fun _ => some ⟨none, []⟩
    marshal := fun _ => some []
    newRequestOk := fun _ => true
    httpResult := fun _ => HttpOutcome.response 200 true [] }

/-- C1 (counterexample): the claim fails because `update` stores the
generated caddyfile *before* the adaptation check, so the next rebuild with
the same output takes the unchanged branch and never re-adapts. -/
theorem adapt_error_not_retried_counterexample : ¬ retriesAdaptationWhenUnchanged := by
  intro h
  have hc := h envC1 envC1 initialState (by decide) rfl rfl
  exact absurd hc (by decide)

/-- C1 (amended): an adaptation error aborts the rebuild — failure is
returned, `ConfigVersion` is not incremented, the stored structured
configuration is kept, and no server is pushed — but the failed output is
recorded as the last-seen caddyfile, so a future rebuild with unchanged
generator output skips adaptation entirely (and succeeds) instead of
retrying it. -/
theorem adapt_error_aborts (e e2 : UpdateEnv) (s : LoaderState)
    (hch : s.lastCaddyfile ≠ e.caddyfile)
    (herr : adaptOk e = false)
    (hsame : e2.caddyfile = e.caddyfile) :
    (update e s).ok = false ∧
    (update e s).state.lastVersion = s.lastVersion ∧
    (update e s).state.lastJSONConfig = s.lastJSONConfig ∧
    posts (update e s).trace = [] ∧
    hasAdapt (update e2 (update e s).state).trace = false ∧
    (update e2 (update e s).state).ok = true := by
  have herr2 : ∃ msg, e.adaptResult = Except.error msg := by
    unfold adaptOk at herr
    cases hres : e.adaptResult with
    | error msg => exact ⟨msg, rfl⟩
    | ok json => rw [hres] at herr; simp at herr
  obtain ⟨msg, hres⟩ := herr2
  have haccf : accepted e s = false := by
    unfold accepted
    rw [if_neg hch]
    exact herr
  have hcf2 : (update e s).state.lastCaddyfile = e2.caddyfile := by
    rw [update_lastCaddyfile, hsame]
  refine ⟨?_, ?_, ?_, ?_, ?_, ?_⟩
  · unfold update
    rw [if_neg hch, hres]
  · rw [update_lastVersion]
    simp [haccf]
  · rw [update_lastJSONConfig, hres]
  · unfold update
    rw [if_neg hch, hres]
    rfl
  · exact update_unchanged_no_adapt e2 _ hcf2
  · exact update_unchanged_ok e2 _ hcf2

/-- Witness for C1's amended theorem at a concrete failing rebuild. -/
theorem adapt_error_aborts_witness :
    (update envC1 initialState).ok = false ∧
    (update envC1 initialState).state.lastVersion = initialState.lastVersion ∧
    (update envC1 initialState).state.lastJSONConfig = initialState.lastJSONConfig ∧
    posts (update envC1 initialState).trace = [] ∧
    hasAdapt (update envC1 (update envC1 initialState).state).trace = false ∧
    (update envC1 (update envC1 initialState).state).ok = true :=
  adapt_error_aborts envC1 envC1 initialState (by decide) rfl rfl

/-- C3: `ConfigVersion` starts at 0, equals the number of accepted changes
along any run (so each accepted change increments it by exactly 1), is
non-decreasing between any two points of the run, and once it strictly
increases it never returns to an earlier value (no value is reused).  The
hypothesis bounds the run length by the `int64` range, within which the
wrap-around increment cannot overflow. -/
theorem configVersion_monotone_exact (envs : List UpdateEnv) (e : UpdateEnv) (i j k : Nat)
    (hij : i ≤ j) (hjk : j ≤ k) (hlen : envs.length + 1 < 2 ^ 63) :
    initialState.lastVersion = 0 ∧
    (runUpdates (envs.take i) initialState).lastVersion =
      (acceptedCount (envs.take i) initialState : Int) ∧
    (runUpdates (envs.take i) initialState).lastVersion ≤
      (runUpdates (envs.take j) initialState).lastVersion ∧
    (accepted e (runUpdates (envs.take i) initialState) = true →
      (update e (runUpdates (envs.take i) initialState)).state.lastVersion =
        (runUpdates (envs.take i) initialState).lastVersion + 1) ∧
    ((runUpdates (envs.take i) initialState).lastVersion <
        (runUpdates (envs.take j) initialState).lastVersion →
      (runUpdates (envs.take i) initialState).lastVersion <
        (runUpdates (envs.take k) initialState).lastVersion) := by
  have hAt : ∀ n : Nat, (runUpdates (envs.take n) initialState).lastVersion =
      (acceptedCount (envs.take n) initialState : Int) := by
    intro n
    have hl : (envs.take n).length ≤ envs.length := by
      rw [List.length_take]
      exact min_le_right _ _
    have h := runUpdates_lastVersion (envs.take n) initialState
      (by simp [initialState]) (by simp only [initialState]; push_cast; omega)
    simpa [initialState] using h
  have hmono : ∀ m n : Nat, m ≤ n →
      acceptedCount (envs.take m) initialState ≤ acceptedCount (envs.take n) initialState := by
    intro m n hmn
    have hsplit : envs.take n = envs.take m ++ (envs.take n).drop m := by
      conv_lhs => rw [← List.take_append_drop m (envs.take n)]
      rw [List.take_take, min_eq_left hmn]
    rw [hsplit, acceptedCount_append]
    omega
  refine ⟨rfl, hAt i, ?_, ?_, ?_⟩
  · rw [hAt i, hAt j]
    exact_mod_cast hmono i j hij
  · intro hacc
    rw [update_lastVersion, if_pos hacc, hAt i]
    have hc := acceptedCount_le_length (envs.take i) initialState
    have hl : (envs.take i).length ≤ envs.length := by
      rw [List.length_take]
      exact min_le_right _ _
    apply wrap64_eq_self <;> push_cast <;> omega
  · intro hlt
    calc (runUpdates (envs.take i) initialState).lastVersion
        < (runUpdates (envs.take j) initialState).lastVersion := hlt
      _ ≤ (runUpdates (envs.take k) initialState).lastVersion := by
          rw [hAt j, hAt k]
          exact_mod_cast hmono j k hjk

/-- Witness for C3: on a concrete one-rebuild run whose change is accepted,
the version goes from 0 to exactly 1 and is monotone across the run. -/
theorem configVersion_monotone_exact_witness :
    (update envC2 (runUpdates ([envC2].take 0) initialState)).state.lastVersion =
      (runUpdates ([envC2].take 0) initialState).lastVersion + 1 ∧
    (runUpdates ([envC2].take 0) initialState).lastVersion ≤
      (runUpdates ([envC2].take 1) initialState).lastVersion := by
  have h := configVersion_monotone_exact [envC2] envC2 0 1 1 (by omega) (le_refl 1)
    (by norm_num)
  exact ⟨h.2.2.2.1 (by decide), h.2.2.1⟩

/-- C4: per server, `lastAppliedVersion` is non-decreasing — across a single
push and across whole runs — and the push procedure reaches its network call
only when the snapshot version is strictly greater than the server's applied
version; when that check fails the call returns with no action at all. -/
theorem lastApplied_monotone_push_guard (env : UpdateEnv) (server k : String)
    (s : LoaderState) (envs : List UpdateEnv) :
    s.serversVersions.Get k ≤ (updateServer env server s).state.serversVersions.Get k ∧
    s.serversVersions.Get k ≤ (runUpdates envs s).serversVersions.Get k ∧
    ((updateServer env server s).trace ≠ [] →
      s.serversVersions.Get server < s.lastVersion) ∧
    (s.lastVersion ≤ s.serversVersions.Get server → (updateServer env server s).trace = []) :=
  ⟨updateServer_versions_le env server k s,
   runUpdates_versions_le envs k s,
   updateServer_post_guard env server s,
   updateServer_skip_current env server s⟩

/-- A state one accepted change past the initial one, used by witnesses: the
configuration is at version 1 which no server has received yet. -/
def stateC4 : LoaderState := { initialState with lastVersion := 1 }

/-- Witness for C4: a server behind the current version satisfies the strict
guard when a POST happens, and a server at the current version is skipped
without any action. -/
theorem lastApplied_monotone_push_guard_witness :
    stateC4.serversVersions.Get "10.0.0.1" < stateC4.lastVersion ∧
    (updateServer envC2 "10.0.0.1" initialState).trace = [] :=
  ⟨(lastApplied_monotone_push_guard envC2 "10.0.0.1" "10.0.0.1" stateC4 []).2.2.1
      (by decide),
   (lastApplied_monotone_push_guard envC2 "10.0.0.1" "10.0.0.1" initialState []).2.2.2
      (by decide)⟩

/-- C5: once a push reaches the network (server not busy, strictly behind,
payload built, request built), exactly one POST is attempted — no retry — and
the server's `lastAppliedVersion` becomes the snapshot version exactly when
the response is a 200 whose body was read successfully; on a transport error,
an unreadable body, or any other status it is left unchanged.  The busy flag
is clear again on exit. -/
theorem push_records_version_iff_success (env : UpdateEnv) (server : String) (s : LoaderState)
    (hbusy : s.serversUpdating.Get server = false)
    (hver : s.serversVersions.Get server < s.lastVersion)
    (hadmin : (addAdminListen env.unmarshal env.marshal s.lastJSONConfig
      ("tcp/" ++ server ++ ":2019")).isSome = true)
    (hreq : env.newRequestOk server = true) :
    (updateServer env server s).state.serversVersions.Get server =
      (if isSuccess (env.httpResult server) then s.lastVersion
       else s.serversVersions.Get server) ∧
    countPosts (updateServer env server s).trace = 1 ∧
    (updateServer env server s).state.serversUpdating.Get server = false := by
  obtain ⟨pb, hb⟩ := Option.isSome_iff_exists.mp hadmin
  rcases hh : env.httpResult server with _ | ⟨status, bodyOk, body⟩
  · simp [updateServer, updateServerBody, hbusy, not_le.mpr hver, hb, hreq, hh,
      isSuccess, countPosts, posts, isHttpPost]
  · rcases bodyOk with _ | _
    · simp [updateServer, updateServerBody, hbusy, not_le.mpr hver, hb, hreq, hh,
        isSuccess, countPosts, posts, isHttpPost]
    · by_cases hst : status = 200
      · subst hst
        simp [updateServer, updateServerBody, hbusy, not_le.mpr hver, hb, hreq, hh,
          isSuccess, countPosts, posts, isHttpPost]
      · simp [updateServer, updateServerBody, hbusy, not_le.mpr hver, hb, hreq, hh,
          isSuccess, countPosts, posts, isHttpPost, hst]

/-- Witness for C5 at a concrete successful push. -/
theorem push_records_version_iff_success_witness :
    (updateServer envC2 "10.0.0.1" stateC4).state.serversVersions.Get "10.0.0.1" =
      (if isSuccess (envC2.httpResult "10.0.0.1") then stateC4.lastVersion
       else stateC4.serversVersions.Get "10.0.0.1") ∧
    countPosts (updateServer envC2 "10.0.0.1" stateC4).trace = 1 ∧
    (updateServer envC2 "10.0.0.1" stateC4).state.serversUpdating.Get "10.0.0.1" = false :=
  push_records_version_iff_success envC2 "10.0.0.1" stateC4 rfl (by decide) rfl rfl

/-- C6: the push payload is the stored structured configuration with its
admin listener overridden to `tcp/<server>:2019`, POSTed to
`http://<server>:2019/load` with Content-Type `application/json` — whatever
the outcome of the request. -/
theorem push_payload_and_endpoint (env : UpdateEnv) (server : String) (s : LoaderState)
    (c : CaddyConfig) (b : Bytes)
    (hbusy : s.serversUpdating.Get server = false)
    (hver : s.serversVersions.Get server < s.lastVersion)
    (hum : env.unmarshal s.lastJSONConfig = some c)
    (hm : env.marshal
      { c with admin := some { listen := "tcp/" ++ server ++ ":2019", extra := [] } } = some b)
    (hreq : env.newRequestOk server = true) :
    posts (updateServer env server s).trace =
      [Action.httpPost ("http://" ++ server ++ ":2019/load") "application/json" b] := by
  have hb : addAdminListen env.unmarshal env.marshal s.lastJSONConfig
      ("tcp/" ++ server ++ ":2019") = some b := by
    unfold addAdminListen
    rw [hum]
    exact hm
  rcases hh : env.httpResult server with _ | ⟨status, bodyOk, body⟩
  · simp [updateServer, updateServerBody, hbusy, not_le.mpr hver, hb, hreq, hh,
      posts, isHttpPost]
  · rcases bodyOk with _ | _
    · simp [updateServer, updateServerBody, hbusy, not_le.mpr hver, hb, hreq, hh,
        posts, isHttpPost]
    · by_cases hst : status = 200
      · subst hst
        simp [updateServer, updateServerBody, hbusy, not_le.mpr hver, hb, hreq, hh,
          posts, isHttpPost]
      · simp [updateServer, updateServerBody, hbusy, not_le.mpr hver, hb, hreq, hh,
          posts, isHttpPost, hst]

/-- Witness for C6 at a concrete push. -/
theorem push_payload_and_endpoint_witness :
    posts (updateServer envC2 "10.0.0.1" stateC4).trace =
      [Action.httpPost "http://10.0.0.1:2019/load" "application/json" [4, 1]] :=
  push_payload_and_endpoint envC2 "10.0.0.1" stateC4 ⟨none, []⟩ [4, 1] rfl (by decide)
    rfl rfl rfl

/-- C7: within one debounce window (no timer fire in between), a burst
containing at least one qualifying event arms the 100 ms debounce timer
exactly once, so exactly one rebuild results from the window: from the
unsuppressed state the whole window performs exactly one timer reset and ends
suppressed; the first qualifying event while unsuppressed sets the flag and
arms the timer; and while suppressed every event is discarded with no
re-arm. -/
theorem debounce_single_arm_per_window (es : List DockerEvent) (e : DockerEvent)
    (h : es.any isUpdateEvent = true) (he : isUpdateEvent e = true) :
    (processEvents false es).2 = [Action.timerReset 100] ∧
    (processEvents false es).1 = true ∧
    listenStep false e = (true, [Action.timerReset 100]) ∧
    processEvents true es = (true, []) := by
  obtain ⟨h1, h2⟩ := processEvents_first_arm es h
  exact ⟨h2, h1, by simp [listenStep, he], processEvents_suppressed es⟩

/-- Witness for C7 at a concrete burst of three events, two qualifying. -/
theorem debounce_single_arm_per_window_witness :
    (processEvents false
      [⟨"container", "start"⟩, ⟨"image", "pull"⟩, ⟨"service", "update"⟩]).2 =
      [Action.timerReset 100] ∧
    (processEvents false
      [⟨"container", "start"⟩, ⟨"image", "pull"⟩, ⟨"service", "update"⟩]).1 = true ∧
    listenStep false ⟨"container", "die"⟩ = (true, [Action.timerReset 100]) ∧
    processEvents true
      [⟨"container", "start"⟩, ⟨"image", "pull"⟩, ⟨"service", "update"⟩] = (true, []) :=
  debounce_single_arm_per_window
    [⟨"container", "start"⟩, ⟨"image", "pull"⟩, ⟨"service", "update"⟩]
    ⟨"container", "die"⟩ (by decide) (by decide)

/-- The execution order C8 claims for each timer fire: the rebuild engine
(starting with the generator call) runs before the poll re-arm and before the
suppressed-flag clear. -/
def rebuildPrecedesRearm : Prop :=
  ∀ (env : UpdateEnv) (s : LoaderState),
    (update env s).trace.findIdx isGenerateCall <
      (update env s).trace.findIdx isTimerReset ∧
    (update env s).trace.findIdx isGenerateCall <
      (update env s).trace.findIdx isClearSkip

/-- C8 (counterexample): in the source the timer re-arm and the
`skipEvents = false` clear are the first two statements of `update`, executed
before the generator is even called, so the claimed order is reversed. -/
theorem rearm_precedes_rebuild_counterexample : ¬ rebuildPrecedesRearm := by
  intro h
  have hc := (h envC1 initialState).1
  exact absurd hc (by decide)

/-- C8 (amended): each time the timer fires, `update` first re-arms the timer
with the poll delay and clears the "events suppressed" flag, and only then
invokes the rebuild-and-diff work: every trace begins with exactly the poll
re-arm, the flag clear and the generator call, everything after those three
actions is engine work (adapter invocation or HTTP pushes), and the flag is
clear when `update` returns. -/
theorem timer_fire_rearms_then_rebuilds (env : UpdateEnv) (s : LoaderState) :
    (update env s).trace.take 3 =
      [Action.timerReset env.pollMs, Action.clearSkipEvents, Action.generateCall] ∧
    ((update env s).trace.drop 3).all (fun a => isAdaptCall a || isHttpPost a) = true ∧
    (update env s).state.skipEvents = false := by
  refine ⟨?_, ?_, update_skipEvents env s⟩
  · unfold update
    split
    · rfl
    · split <;> rfl
  · unfold update
    split
    · simp only [List.cons_append, List.nil_append, List.drop_succ_cons, List.drop_zero]
      rw [List.all_eq_true]
      intro a ha
      have := distribute_trace_posts env env.controlledServers _ a ha
      simp [this]
    · split
      · simp [isAdaptCall]
      · simp only [List.cons_append, List.nil_append, List.drop_succ_cons, List.drop_zero]
        rw [List.all_eq_true]
        intro a ha
        rcases List.mem_cons.mp ha with ha | ha
        · simp [ha, isAdaptCall]
        · have := distribute_trace_posts env env.controlledServers _ a ha
          simp [this]

/-- The mutual-exclusion discipline C9 claims for the busy flag, over the
interleavings of two pushes to the same server (each concurrent-map operation
is atomic, the check-then-set sequence is not): the flag is never set twice
without an intervening clear. -/
def busyFlagExclusive : Prop :=
  ∀ (vA vB : Int) (okA okB : Bool) (sched : List Bool),
    noDoubleSet (twoRun vA vB okA okB sched initTwoPush).events = true

/-- C9 (counterexample): the busy check (`Get`, line 204) and the flag write
(`Set`, line 209) are distinct atomic operations, so under the schedule
A-check, B-check, A-set, B-set both pushes pass the check and both set the
flag — two pushes to the same server are in flight simultaneously and the
flag is set twice without an intervening clear. -/
theorem busy_flag_double_set_counterexample : ¬ busyFlagExclusive := by
  intro h
  have hc := h 1 1 true true [true, false, true, false]
  exact absurd hc (by decide)

/-- C9 (amended): a push that observes the busy flag already set returns
immediately with no effect, and a push that observes it clear sets it exactly
once and clears it on every exit path, terminating with the flag clear; what
the non-atomic check-then-set cannot guarantee is exclusion between two
pushes that both pass the check before either sets the flag. -/
theorem busy_flag_cleared_and_guard (v : Int) (ok : Bool) (sh sh2 : PushShared)
    (hbusy : sh.busy = false) (hbusy2 : sh2.busy = true) :
    pushRun v ok 6 PushPC.start sh2 = ⟨PushPC.done, sh2, []⟩ ∧
    (pushRun v ok 6 PushPC.start sh).pc = PushPC.done ∧
    (pushRun v ok 6 PushPC.start sh).shared.busy = false ∧
    (pushRun v ok 6 PushPC.start sh).events = [BusyEvent.busySet, BusyEvent.busyClear] :=
  ⟨pushRun_busy v ok sh2 hbusy2, pushRun_notBusy v ok sh hbusy⟩

/-- Witness for C9's amended theorem at concrete shared states. -/
theorem busy_flag_cleared_and_guard_witness :
    pushRun 1 true 6 PushPC.start ⟨true, 0⟩ = ⟨PushPC.done, ⟨true, 0⟩, []⟩ ∧
    (pushRun 1 true 6 PushPC.start ⟨false, 0⟩).pc = PushPC.done ∧
    (pushRun 1 true 6 PushPC.start ⟨false, 0⟩).shared.busy = false ∧
    (pushRun 1 true 6 PushPC.start ⟨false, 0⟩).events =
      [BusyEvent.busySet, BusyEvent.busyClear] :=
  busy_flag_cleared_and_guard 1 true ⟨false, 0⟩ ⟨true, 0⟩ rfl rfl

/-- A skipped push (server already at the snapshot version) leaves the
version map untouched — structurally, not just pointwise — and performs no
action. -/
lemma updateServer_skip_state (env : UpdateEnv) (server : String) (s : LoaderState)
    (h : s.lastVersion ≤ s.serversVersions.Get server) :
    (updateServer env server s).state.serversVersions = s.serversVersions ∧
    (updateServer env server s).trace = [] := by
  unfold updateServer
  split
  · exact ⟨rfl, rfl⟩
  · unfold updateServerBody
    rw [if_pos h]
    exact ⟨rfl, rfl⟩

/-- When every server is already at the current version, the whole
distribution pass is a no-op: no action, version map untouched. -/
lemma distribute_all_current (env : UpdateEnv) (servers : List String) :
    ∀ (s : LoaderState), (∀ q, s.lastVersion ≤ s.serversVersions.Get q) →
    (distribute env servers s).state.serversVersions = s.serversVersions ∧
    (distribute env servers s).trace = [] := by
  induction servers with
  | nil => exact fun s _ => ⟨rfl, rfl⟩
  | cons server rest ih =>
    intro s h
    obtain ⟨h1, h2⟩ := updateServer_skip_state env server s (h server)
    obtain ⟨h3, h4⟩ := ih (updateServer env server s).state
      (fun q => by rw [updateServer_lastVersion, h1]; exact h q)
    simp only [distribute]
    constructor
    · rw [h3, h1]
    · rw [h2, h4]
      rfl

/-- Along a run all of whose generator outputs are empty, starting from a
state with the nil caddyfile, version 0 and no server ahead of version 0,
nothing happens: version stays 0, the adapter is never invoked, no POST is
ever made, and the stored caddyfile stays nil. -/
lemma run_empty_caddyfiles (envs : List UpdateEnv) : ∀ (s : LoaderState),
    s.lastCaddyfile = [] → s.lastVersion = 0 →
    (∀ q, (0 : Int) ≤ s.serversVersions.Get q) →
    envs.all (fun e => e.caddyfile.isEmpty) = true →
    (runTrace envs s).state.lastCaddyfile = [] ∧
    (runTrace envs s).state.lastVersion = 0 ∧
    (∀ q, (0 : Int) ≤ (runTrace envs s).state.serversVersions.Get q) ∧
    hasAdapt (runTrace envs s).trace = false ∧
    posts (runTrace envs s).trace = [] := by
  induction envs with
  | nil =>
    intro s h1 h2 h3 _
    exact ⟨h1, h2, h3, rfl, rfl⟩
  | cons e rest ih =>
    intro s h1 h2 h3 hall
    simp only [List.all_cons, Bool.and_eq_true] at hall
    have hce : e.caddyfile = [] := List.isEmpty_iff.mp hall.1
    have hcfe : s.lastCaddyfile = e.caddyfile := by rw [h1, hce]
    have hguards : ∀ q,
        ({ s with skipEvents := false, lastCaddyfile := e.caddyfile } :
          LoaderState).lastVersion ≤
        ({ s with skipEvents := false, lastCaddyfile := e.caddyfile } :
          LoaderState).serversVersions.Get q := by
      intro q
      show s.lastVersion ≤ s.serversVersions.Get q
      rw [h2]
      exact h3 q
    obtain ⟨hm, ht⟩ := distribute_all_current e e.controlledServers _ hguards
    have hst : (update e s).state.serversVersions = s.serversVersions := by
      unfold update
      rw [if_pos hcfe]
      exact hm
    have htr : posts (update e s).trace = [] := by
      unfold update
      rw [if_pos hcfe]
      simp [posts, isHttpPost, ht]
    have hna : hasAdapt (update e s).trace = false := update_unchanged_no_adapt e s hcfe
    have hv : (update e s).state.lastVersion = 0 := by
      rw [update_lastVersion]
      have hacc : accepted e s = false := by
        unfold accepted
        rw [if_pos hcfe]
      simp [hacc, h2]
    have hcf : (update e s).state.lastCaddyfile = [] := by
      rw [update_lastCaddyfile, hce]
    obtain ⟨g1, g2, g3, g4, g5⟩ := ih (update e s).state hcf hv
      (fun q => by rw [hst]; exact h3 q) hall.2
    refine ⟨g1, g2, g3, ?_, ?_⟩
    · simp only [runTrace]
      simp only [hasAdapt, List.any_append, Bool.or_eq_false_iff] at hna g4 ⊢
      exact ⟨hna, g4⟩
    · simp only [runTrace]
      simp only [posts, List.filter_append] at htr g5 ⊢
      rw [htr, g5]
      rfl

/-- C10: if every rebuild so far generated an empty caddyfile, the nil
initial caddyfile compares equal to it, so from the fresh loader the adapter
is never invoked, `ConfigVersion` stays 0, and no server is ever pushed
(every server's absent `lastAppliedVersion` reads as 0, which already
satisfies the skip check); the first rebuild whose output is non-empty takes
the changed branch and invokes the adapter. -/
theorem empty_initial_caddyfile_noop (envs : List UpdateEnv) (e2 : UpdateEnv)
    (hall : envs.all (fun e => e.caddyfile.isEmpty) = true)
    (hne : e2.caddyfile ≠ []) :
    (runTrace envs initialState).state.lastVersion = 0 ∧
    hasAdapt (runTrace envs initialState).trace = false ∧
    posts (runTrace envs initialState).trace = [] ∧
    hasAdapt (update e2 (runTrace envs initialState).state).trace = true := by
  obtain ⟨g1, g2, g3, g4, g5⟩ := run_empty_caddyfiles envs initialState rfl rfl
    (fun q => le_refl 0) hall
  refine ⟨g2, g4, g5, ?_⟩
  have hch : ¬ (runTrace envs initialState).state.lastCaddyfile = e2.caddyfile := by
    rw [g1]
    exact fun hc => hne hc.symm
  unfold update hasAdapt
  rw [if_neg hch]
  rcases hres : e2.adaptResult with msg | json <;> simp [hres, isAdaptCall]

/-- A rebuild environment whose generator output is empty. -/
def envC10 : UpdateEnv := { envC2 with caddyfile := [] }

/-- Witness for C10: one empty rebuild from the fresh loader does nothing,
and a following non-empty rebuild invokes the adapter. -/
theorem empty_initial_caddyfile_noop_witness :
    (runTrace [envC10] initialState).state.lastVersion = 0 ∧
    hasAdapt (runTrace [envC10] initialState).trace = false ∧
    posts (runTrace [envC10] initialState).trace = [] ∧
    hasAdapt (update envC2 (runTrace [envC10] initialState).state).trace = true :=
  empty_initial_caddyfile_noop [envC10] envC2 (by decide) (by decide)

end CaddyDockerProxy
